import Mathlib

/-!
Shallow embedding of the beskar policy-evaluation bridge (package `router`):
the pooled-buffer request-body accessor (`request.body` builtin, the
`bufPoolCloser` wrapper) and the registry blob-digest resolver
(`oci.blob_digest` builtin), together with theorems settling the frozen
claims about them.

External collaborators (the OPA value parser, the distribution registry
capability, the `reference.WithName` name validator, `json.Unmarshal`) are
modelled as explicit environment records; the bridge code itself is
translated statement-by-statement from `pkg/router` in `event.pb.go`.
-/

namespace Beskar

/-- Events on the shared buffer pool (`bufferPool.Get` / `bufferPool.Put`),
tagged with an identity for the buffer involved. -/
inductive PoolEvent where
  | acquire (bufId : Nat)
  | release (bufId : Nat)
deriving Repr, DecidableEq

/-- State of `req.Body`: Go `nil`, the `http.NoBody` sentinel, an ordinary
stream delivering the given chunks (one chunk per `Read` call), or a
`bufPoolCloser` wrapping a `bytes.Reader` over `bytes` at position `pos`
together with its pooled buffer `bufId`. -/
inductive Body where
  | nilBody
  | noBody
  | stream (chunks : List (List UInt8))
  | replayable (bytes : List UInt8) (pos : Nat) (bufId : Nat)
deriving Repr, DecidableEq

/-- The per-request `funcContext`: the request (represented by its body) and
the shared `builtinErr` slot. The registry handle lives in the separate
`Registry` environment record. -/
structure FuncContext where
  reqBody : Body
  builtinErr : Option String
deriving Repr, DecidableEq

/-- Evaluation-visible state: whether the `funcContext` was attached to the
request context (`bctx.Context.Value`), and the cancellation token
(`bctx.Cancel`). -/
structure EvalState where
  funcCtx : Option FuncContext
  cancelled : Bool
deriving Repr, DecidableEq

/-- A policy-evaluator value (`ast.Value`): the null value
(`ast.InterfaceToValue(nil)`), a string, or a structured value abstracted by
the bytes it was decoded from. -/
inductive AstValue where
  | null
  | str (s : String)
  | node (bs : List UInt8)
deriving Repr, DecidableEq

/-- Environment of the `request.body` builtin: the external OPA parser
`ast.ValueFromReader`, and the identity of the buffer `bufferPool.Get`
hands out for this invocation. -/
structure ReqEnv where
  parse : List UInt8 → Except String AstValue
  bufId : Nat

/-- Outcome of one invocation of the `request.body` builtin: the returned
term (if any), the returned Go error (if any), the evaluation state
afterwards, and the pool events the invocation performed. -/
structure BuiltinResult where
  term : Option AstValue
  err : Option String
  state : EvalState
  events : List PoolEvent
deriving Repr, DecidableEq

/-- Capacity of a pooled buffer: `make([]byte, 8192)` in `newBuffer`. -/
def bufCap : Nat := 8192

/-- The deferred wrapping in `requestBodyBuiltin`:
`fmt.Errorf("%s builtin eval request.body error: %w", bctx.Location, errFn)`. -/
def wrapReqBodyErr (loc e : String) : String :=
  loc ++ " builtin eval request.body error: " ++ e

/-- `io.ReadAtLeast(r, buf, 1)` over a chunk stream with buffer capacity
`cap`: repeatedly `Read` until at least one byte arrives. A `Read` on an
exhausted stream yields `io.EOF` (so `ReadAtLeast` fails, third component
`true`); an empty chunk is a `(0, nil)` read and the loop continues; a chunk
longer than the remaining buffer space is truncated, the rest staying in the
stream. Returns the bytes placed in the buffer, the remaining stream, and
whether the read failed. -/
def readAtLeast1Stream (cap : Nat) : List (List UInt8) → List UInt8 × List (List UInt8) × Bool
  | [] => ([], [], true)
  | c :: cs =>
    if c.isEmpty then readAtLeast1Stream cap cs
    else if c.length ≤ cap then (c, cs, false)
    else (c.take cap, c.drop cap :: cs, false)

/-- `io.ReadAtLeast(body, buf, 1)` on any `req.Body` state. Reading a
`bufPoolCloser` reads its `bytes.Reader` from its current position. `nil`
and `http.NoBody` are never read by the builtin (guarded before the read);
they behave as immediate `EOF`. -/
def readAtLeast1Body (cap : Nat) : Body → List UInt8 × Body × Bool
  | Body.stream cs =>
    let r := readAtLeast1Stream cap cs
    (r.1, Body.stream r.2.1, r.2.2)
  | Body.replayable bs pos bufId =>
    let avail := bs.drop pos
    if avail.isEmpty then ([], Body.replayable bs pos bufId, true)
    else (avail.take cap, Body.replayable bs (pos + min cap avail.length) bufId, false)
  | Body.nilBody => ([], Body.nilBody, true)
  | Body.noBody => ([], Body.noBody, true)

/-- Body of the `request.body` builtin between the context lookup and the
returns (the deferred error handler is factored into the wrapper below,
exactly as it applies uniformly to every return in the Go code): on a `nil`
or `http.NoBody` body, `ast.InterfaceToValue(nil)` yields the null value
with no error; otherwise acquire a pooled buffer, `io.ReadAtLeast(..., 1)`
(failure: `"empty body request"`), parse the bytes read with
`ast.ValueFromReader`, rewind the reader to offset 0 and substitute
`req.Body` with a `bufPoolCloser` over the bytes read. Returns the value or
error, the resulting `req.Body`, and the pool events performed. -/
def reqBodyCore (env : ReqEnv) : Body → Except String AstValue × Body × List PoolEvent
  | Body.nilBody => (Except.ok AstValue.null, Body.nilBody, [])
  | Body.noBody => (Except.ok AstValue.null, Body.noBody, [])
  | b =>
    let events := [PoolEvent.acquire env.bufId]
    let r := readAtLeast1Body bufCap b
    if r.2.2 then (Except.error "empty body request", r.2.1, events)
    else
      match env.parse r.1 with
      | Except.error pe => (Except.error pe, r.2.1, events)
      | Except.ok v => (Except.ok v, Body.replayable r.1 0 env.bufId, events)

/-- The `request.body` builtin (`requestBodyBuiltin` in `router`): look up
the `funcContext`, cancelling with a "bad context" error when it is absent
(the deferred handler is not yet armed there, and there is no slot to
write); otherwise run the body and, as the deferred handler does on every
error exit, store the wrapped error into `funcContext.builtinErr` and
cancel. -/
def requestBodyBuiltin (env : ReqEnv) (loc : String) (s : EvalState) : BuiltinResult :=
  match s.funcCtx with
  | none =>
    { term := none, err := some "bad context"
      state := { s with cancelled := true }, events := [] }
  | some fc =>
    match reqBodyCore env fc.reqBody with
    | (Except.ok v, b', evs) =>
      { term := some v, err := none
        state := { funcCtx := some { reqBody := b', builtinErr := fc.builtinErr }
                   cancelled := s.cancelled }
        events := evs }
    | (Except.error e, b', evs) =>
      { term := none, err := some e
        state := { funcCtx := some { reqBody := b'
                                     builtinErr := some (wrapReqBodyErr loc e) }
                   cancelled := true }
        events := evs }

/-- `bufPoolCloser.Close`: unconditionally `bufferPool.Put(bpc.buf)` and
return a nil error. The closer keeps no state, so every call emits another
release of the same buffer. -/
def bufPoolCloserClose (bufId : Nat) : List PoolEvent × Option String :=
  ([PoolEvent.release bufId], none)

/-- Pool events emitted by calling `Close` on the same `bufPoolCloser`
`k` times in succession. -/
def closeTimes (bufId : Nat) : Nat → List PoolEvent
  | 0 => []
  | k + 1 => (bufPoolCloserClose bufId).1 ++ closeTimes bufId k

/-- The `req.Body` field after an invocation, when a `funcContext` exists. -/
def resultBody (r : BuiltinResult) : Option Body :=
  r.state.funcCtx.map FuncContext.reqBody

/-- Whether the shared per-request error slot is non-empty: a `funcContext`
is attached and its `builtinErr` holds an error. -/
def slotNonEmpty (s : EvalState) : Bool :=
  match s.funcCtx with
  | none => false
  | some fc => fc.builtinErr.isSome

/-- The bytes a downstream consumer obtains by reading the body from the
start: a stream delivers its chunks in order, a `bufPoolCloser` read from
the start delivers the bytes it wraps. -/
def bodyContentFromStart : Body → List UInt8
  | Body.stream cs => cs.flatten
  | Body.replayable bs _ _ => bs
  | Body.nilBody => []
  | Body.noBody => []

/-- Outcome of `repository.Tags(ctx).Get(ctx, tag)`: a descriptor carrying
the tag's digest, the specific `distribution.ErrTagUnknown`, or any other
lookup error. -/
inductive TagLookup where
  | found (digest : String)
  | unknown
  | failure (e : String)
deriving Repr, DecidableEq

/-- A manifest layer (`v1.Descriptor`): its media type and the hex part of
its digest (`layer.Digest.Hex`, no algorithm prefix). -/
structure Layer where
  mediaType : String
  digestHex : String
deriving Repr, DecidableEq

/-- A decoded image manifest (`v1.Manifest`), reduced to its layer list. -/
structure Manifest where
  layers : List Layer
deriving Repr, DecidableEq

/-- The registry collaborator and the external helpers the resolver calls:
`reference.WithName` validity, `registry.Repository`, the tag index lookup,
`repository.Manifests`, `manifestService.Get`, `registryManifest.Payload`,
and `json.Unmarshal` into a `v1.Manifest`. Repositories and manifests are
keyed by name and digest strings. -/
structure Registry where
  validName : String → Bool
  repoOpen : String → Except String Unit
  tagGet : String → String → TagLookup
  manifestsSvc : String → Except String Unit
  manifestGet : String → String → Except String Unit
  payload : String → String → Except String (List UInt8)
  unmarshal : List UInt8 → Except String Manifest

/-- Registry-collaborator operations, recorded in invocation order. -/
inductive RegOp where
  | openRepo (name : String)
  | tagLookup (name tag : String)
  | manifestsService (name : String)
  | manifestFetch (name digest : String)
deriving Repr, DecidableEq

/-- An argument term handed to the builtin: an `ast.String`, or a value of
any other type (failing the `a.Value.(ast.String)` assertion). -/
inductive AstArg where
  | str (s : String)
  | nonStr
deriving Repr, DecidableEq

/-- Outcome of one invocation of the `oci.blob_digest` builtin: result
string (from `ast.StringTerm`) or error, evaluation state afterwards, and
the registry operations invoked. -/
structure OciResult where
  term : Option String
  err : Option String
  state : EvalState
  ops : List RegOp
deriving Repr, DecidableEq

/-- `strings.LastIndexByte(ref, ':')` followed by the slicing
`ref[:tagIndex]` / `ref[tagIndex+1:]`: `none` when no colon occurs, else the
split at the last colon. -/
def splitLastColon : List Char → Option (List Char × List Char)
  | [] => none
  | c :: cs =>
    match splitLastColon cs with
    | some p => some (c :: p.1, p.2)
    | none => if c = ':' then some ([], cs) else none

/-- The layer scan of the resolver: walk `manifest.Layers` in order,
skipping layers whose media type differs, returning the first match's hex
digest. -/
def firstLayerDigest (mediaType : String) : List Layer → Option String
  | [] => none
  | l :: ls =>
    if l.mediaType = mediaType then some l.digestHex
    else firstLayerDigest mediaType ls

/-- The deferred wrapping in `ociBlobDigestBuiltin`:
`fmt.Errorf("%s builtin eval oci.blob_digest error: %w", bctx.Location, errFn)`. -/
def wrapOciErr (loc e : String) : String :=
  loc ++ " builtin eval oci.blob_digest error: " ++ e

/-- Error exit of the resolver after the `funcContext` was found: the
deferred handler stores the wrapped error in the shared slot and cancels. -/
def ociFail (loc : String) (fc : FuncContext) (e : String) (ops : List RegOp) : OciResult :=
  { term := none, err := some e
    state :=
      { funcCtx := some { fc with builtinErr := some (wrapOciErr loc e) }
        cancelled := true }
    ops := ops }

/-- Body of the `oci.blob_digest` builtin between the context lookup and
the returns (the deferred error handler is factored into the wrapper below,
exactly as it applies uniformly to every return in the Go code): argument
type checks, split of the reference at its last colon, name validation,
repository open, tag lookup (with `ErrTagUnknown` mapped to a successful
empty string), manifest-service acquisition, manifest fetch, payload
extraction, JSON decode, and the first-matching-layer scan. Returns the
result string or error, with the registry operations invoked. -/
def ociCore (reg : Registry) (a b : AstArg) : Except String String × List RegOp :=
  match a with
  | AstArg.nonStr => (Except.error "oci reference is not a string", [])
  | AstArg.str ref =>
    match b with
    | AstArg.nonStr => (Except.error "oci layer mediatype is not a string", [])
    | AstArg.str mediaType =>
      match splitLastColon ref.data with
      | none => (Except.error "reference without tag", [])
      | some p =>
        let name := String.mk p.1
        let tag := String.mk p.2
        if reg.validName name then
          match reg.repoOpen name with
          | Except.error e =>
            (Except.error ("while getting repository " ++ name ++ ": " ++ e),
             [RegOp.openRepo name])
          | Except.ok _ =>
            let ops2 := [RegOp.openRepo name, RegOp.tagLookup name tag]
            match reg.tagGet name tag with
            | TagLookup.unknown => (Except.ok "", ops2)
            | TagLookup.failure e =>
              (Except.error ("while getting tag " ++ tag ++ ": " ++ e), ops2)
            | TagLookup.found digest =>
              let ops3 := ops2 ++ [RegOp.manifestsService name]
              match reg.manifestsSvc name with
              | Except.error e =>
                (Except.error
                  ("while getting manifest service for " ++ name ++ ": " ++ e), ops3)
              | Except.ok _ =>
                let ops4 := ops3 ++ [RegOp.manifestFetch name digest]
                match reg.manifestGet name digest with
                | Except.error e =>
                  (Except.error
                    ("while getting manifest for " ++ name ++ ": " ++ e), ops4)
                | Except.ok _ =>
                  match reg.payload name digest with
                  | Except.error e => (Except.error e, ops4)
                  | Except.ok pl =>
                    match reg.unmarshal pl with
                    | Except.error e => (Except.error e, ops4)
                    | Except.ok manifest =>
                      match firstLayerDigest mediaType manifest.layers with
                      | some hex => (Except.ok hex, ops4)
                      | none => (Except.ok "", ops4)
        else (Except.error "bad reference name", [])

/-- The `oci.blob_digest` builtin (`ociBlobDigestBuiltin` in `router`):
look up the `funcContext`, cancelling with a "bad context" error when it is
absent (the deferred handler is not yet armed there, and there is no slot
to write); otherwise run the body and, as the deferred handler does on
every error exit, store the wrapped error into `funcContext.builtinErr` and
cancel. -/
def ociBlobDigestBuiltin (reg : Registry) (loc : String) (a b : AstArg)
    (s : EvalState) : OciResult :=
  match s.funcCtx with
  | none =>
    { term := none, err := some "bad context"
      state := { s with cancelled := true }, ops := [] }
  | some fc =>
    match ociCore reg a b with
    | (Except.ok v, ops) => { term := some v, err := none, state := s, ops := ops }
    | (Except.error e, ops) => ociFail loc fc e ops

/-- Contents of the shared per-request error slot, when a `funcContext`
is attached. -/
def slotOf (s : EvalState) : Option String :=
  s.funcCtx.bind FuncContext.builtinErr

/-- A concrete source location for witnesses. -/
def locDemo : String := "policy.rego:3"

/-- A `funcContext` whose request carries an exhausted body stream. -/
def fcEmptyStream : FuncContext := { reqBody := Body.stream [], builtinErr := none }

/-- A parser environment that rejects every input, with buffer identity 7. -/
def envParseError : ReqEnv := { parse := fun _ => Except.error "invalid value", bufId := 7 }

/-- A parser environment that accepts every input as a structured node over
the bytes read, with buffer identity 7. -/
def envParseOk : ReqEnv := { parse := fun bs => Except.ok (AstValue.node bs), bufId := 7 }

/-- A concrete registry for witnesses: every non-empty name is valid and
opens, tag `"gone"` is unknown, tag `"bad"` fails, every other tag resolves
to one manifest with three layers. -/
def regDemo : Registry :=
  { validName := fun n => !n.isEmpty
    repoOpen := fun _ => Except.ok ()
    tagGet := fun _ t =>
      if t = "gone" then TagLookup.unknown
      else if t = "bad" then TagLookup.failure "boom"
      else TagLookup.found "sha256abc"
    manifestsSvc := fun _ => Except.ok ()
    manifestGet := fun _ _ => Except.ok ()
    payload := fun _ _ => Except.ok [1, 2]
    unmarshal := fun _ =>
      Except.ok { layers := [Layer.mk "mtA" "hex1", Layer.mk "mtB" "hex2",
                             Layer.mk "mtA" "hex3"] } }

/-! Helper lemmas about the split, the read loop and the layer scan. -/

theorem splitLastColon_eq_none (l : List Char) : splitLastColon l = none ↔ ':' ∉ l := by
  induction l with
  | nil => simp [splitLastColon]
  | cons c cs ih =>
    simp only [splitLastColon]
    cases h : splitLastColon cs with
    | some p =>
      have hmem : ':' ∈ cs := by
        by_contra hn
        simp [ih.mpr hn] at h
      simp [List.mem_cons, hmem]
    | none =>
      have hcs : ':' ∉ cs := ih.mp h
      by_cases hc : c = ':'
      · simp [hc]
      · simp [hc, List.mem_cons, hcs, Ne.symm hc]

theorem splitLastColon_append (n t : List Char) (ht : ':' ∉ t) :
    splitLastColon (n ++ ':' :: t) = some (n, t) := by
  induction n with
  | nil => simp [splitLastColon, (splitLastColon_eq_none t).mpr ht]
  | cons c cs ih => simp [splitLastColon, ih]

theorem readAtLeast1Stream_flatten (cap : Nat) (cs : List (List UInt8)) :
    cs.flatten =
      (readAtLeast1Stream cap cs).1 ++ ((readAtLeast1Stream cap cs).2.1).flatten := by
  induction cs with
  | nil => simp [readAtLeast1Stream]
  | cons c cs ih =>
    simp only [readAtLeast1Stream]
    by_cases h1 : c.isEmpty
    · have hc : c = [] := List.isEmpty_iff.mp h1
      simp [h1, hc, ih]
    · by_cases h2 : c.length ≤ cap
      · simp [h1, h2]
      · simp [h1, h2, List.flatten_cons, ← List.append_assoc, List.take_append_drop]

theorem readAtLeast1Stream_allEmpty (cap : Nat) (cs : List (List UInt8))
    (h : ∀ c ∈ cs, c = ([] : List UInt8)) :
    readAtLeast1Stream cap cs = ([], [], true) := by
  induction cs with
  | nil => rfl
  | cons c cs ih =>
    have hc : c = [] := h c (by simp)
    simp [readAtLeast1Stream, hc,
      ih (fun x hx => h x (by simp [hx]))]

theorem readAtLeast1Stream_single (cap : Nat) (c : List UInt8)
    (h1 : c ≠ []) (h2 : c.length ≤ cap) :
    readAtLeast1Stream cap [c] = (c, [], false) := by
  simp [readAtLeast1Stream, h1, h2]

theorem firstLayerDigest_eq_find (mt : String) (ls : List Layer) :
    firstLayerDigest mt ls = (ls.find? fun l => l.mediaType == mt).map Layer.digestHex := by
  induction ls with
  | nil => rfl
  | cons l ls ih =>
    by_cases h : l.mediaType = mt
    · simp [firstLayerDigest, List.find?, h]
    · have hb : (l.mediaType == mt) = false := beq_eq_false_iff_ne.mpr h
      simp [firstLayerDigest, List.find?, h, hb, ih]

theorem ociBuiltin_ops (reg : Registry) (loc : String) (a b : AstArg)
    (fc : FuncContext) (c : Bool) :
    (ociBlobDigestBuiltin reg loc a b ⟨some fc, c⟩).ops = (ociCore reg a b).2 := by
  simp only [ociBlobDigestBuiltin]
  rcases hco : ociCore reg a b with ⟨res, ops⟩
  cases res <;> simp [ociFail]

theorem ociBuiltin_of_core_ok (reg : Registry) (loc : String) (a b : AstArg)
    (fc : FuncContext) (c : Bool) (v : String) (ops : List RegOp)
    (h : ociCore reg a b = (Except.ok v, ops)) :
    ociBlobDigestBuiltin reg loc a b ⟨some fc, c⟩ =
      { term := some v, err := none, state := ⟨some fc, c⟩, ops := ops } := by
  simp [ociBlobDigestBuiltin, h]

theorem ociBuiltin_of_core_error (reg : Registry) (loc : String) (a b : AstArg)
    (fc : FuncContext) (c : Bool) (e : String) (ops : List RegOp)
    (h : ociCore reg a b = (Except.error e, ops)) :
    ociBlobDigestBuiltin reg loc a b ⟨some fc, c⟩ = ociFail loc fc e ops := by
  simp [ociBlobDigestBuiltin, h]

theorem ociCore_ops_structure (reg : Registry) (ref mt : String) (nm tg : List Char)
    (hsplit : splitLastColon ref.data = some (nm, tg))
    (hv : reg.validName (String.mk nm) = true) :
    (ociCore reg (AstArg.str ref) (AstArg.str mt)).2.head? =
        some (RegOp.openRepo (String.mk nm)) ∧
    (∀ nm' tg', RegOp.tagLookup nm' tg' ∈ (ociCore reg (AstArg.str ref) (AstArg.str mt)).2 →
        nm' = String.mk nm ∧ tg' = String.mk tg) ∧
    (reg.repoOpen (String.mk nm) = Except.ok () →
        RegOp.tagLookup (String.mk nm) (String.mk tg) ∈
          (ociCore reg (AstArg.str ref) (AstArg.str mt)).2) := by
  simp only [ociCore, hsplit, hv, if_true]
  cases hro : reg.repoOpen (String.mk nm) with
  | error e => simp [hro]
  | ok u =>
    cases htg : reg.tagGet (String.mk nm) (String.mk tg) with
    | unknown => simp [hro, htg]
    | failure e => simp [hro, htg]
    | found d =>
      cases hms : reg.manifestsSvc (String.mk nm) with
      | error e => simp [hro, htg, hms]
      | ok u2 =>
        cases hmg : reg.manifestGet (String.mk nm) d with
        | error e => simp [hro, htg, hms, hmg]
        | ok u3 =>
          cases hpl : reg.payload (String.mk nm) d with
          | error e => simp [hro, htg, hms, hmg, hpl]
          | ok pl =>
            cases hum : reg.unmarshal pl with
            | error e => simp [hro, htg, hms, hmg, hpl, hum]
            | ok m =>
              cases hfl : firstLayerDigest mt m.layers <;>
                simp [hro, htg, hms, hmg, hpl, hum, hfl]

theorem ociCore_tagUnknown (reg : Registry) (ref mt : String) (nm tg : List Char)
    (hsplit : splitLastColon ref.data = some (nm, tg))
    (hv : reg.validName (String.mk nm) = true)
    (hro : reg.repoOpen (String.mk nm) = Except.ok ())
    (htg : reg.tagGet (String.mk nm) (String.mk tg) = TagLookup.unknown) :
    ociCore reg (AstArg.str ref) (AstArg.str mt) =
      (Except.ok "",
       [RegOp.openRepo (String.mk nm), RegOp.tagLookup (String.mk nm) (String.mk tg)]) := by
  simp [ociCore, hsplit, hv, hro, htg]

theorem ociCore_tagFailure (reg : Registry) (ref mt : String) (nm tg : List Char)
    (e : String)
    (hsplit : splitLastColon ref.data = some (nm, tg))
    (hv : reg.validName (String.mk nm) = true)
    (hro : reg.repoOpen (String.mk nm) = Except.ok ())
    (htg : reg.tagGet (String.mk nm) (String.mk tg) = TagLookup.failure e) :
    ociCore reg (AstArg.str ref) (AstArg.str mt) =
      (Except.error ("while getting tag " ++ String.mk tg ++ ": " ++ e),
       [RegOp.openRepo (String.mk nm), RegOp.tagLookup (String.mk nm) (String.mk tg)]) := by
  simp [ociCore, hsplit, hv, hro, htg]

theorem ociCore_decoded (reg : Registry) (ref mt : String) (nm tg : List Char)
    (d : String) (pl : List UInt8) (m : Manifest)
    (hsplit : splitLastColon ref.data = some (nm, tg))
    (hv : reg.validName (String.mk nm) = true)
    (hro : reg.repoOpen (String.mk nm) = Except.ok ())
    (htg : reg.tagGet (String.mk nm) (String.mk tg) = TagLookup.found d)
    (hms : reg.manifestsSvc (String.mk nm) = Except.ok ())
    (hmg : reg.manifestGet (String.mk nm) d = Except.ok ())
    (hpl : reg.payload (String.mk nm) d = Except.ok pl)
    (hum : reg.unmarshal pl = Except.ok m) :
    ociCore reg (AstArg.str ref) (AstArg.str mt) =
      (Except.ok ((m.layers.find? fun l => l.mediaType == mt).elim "" Layer.digestHex),
       [RegOp.openRepo (String.mk nm), RegOp.tagLookup (String.mk nm) (String.mk tg),
        RegOp.manifestsService (String.mk nm), RegOp.manifestFetch (String.mk nm) d]) := by
  simp only [ociCore, hsplit, hv, if_true, hro, htg, hms, hmg, hpl, hum,
    firstLayerDigest_eq_find]
  cases hf : m.layers.find? (fun l => l.mediaType == mt) <;> simp [hf]

/-! Claim theorems for the blob-digest resolver. -/

/-- C4: for every reference string containing more than one colon, the
resolver splits at the last colon: the repository it opens is named by
everything before the last colon, and any tag it looks up is exactly the
part after the last colon — earlier colons inside the name do not affect
parsing. -/
theorem blobDigest_splits_at_last_colon (reg : Registry) (loc : String)
    (fc : FuncContext) (c : Bool) (mt : String) (n t : List Char)
    (_hn : ':' ∈ n) (ht : ':' ∉ t)
    (hv : reg.validName (String.mk n) = true) :
    (ociBlobDigestBuiltin reg loc (AstArg.str (String.mk (n ++ ':' :: t)))
        (AstArg.str mt) ⟨some fc, c⟩).ops.head? = some (RegOp.openRepo (String.mk n)) ∧
    (∀ nm' tg', RegOp.tagLookup nm' tg' ∈
        (ociBlobDigestBuiltin reg loc (AstArg.str (String.mk (n ++ ':' :: t)))
          (AstArg.str mt) ⟨some fc, c⟩).ops →
      nm' = String.mk n ∧ tg' = String.mk t) := by
  have hsplit : splitLastColon (String.mk (n ++ ':' :: t)).data = some (n, t) :=
    splitLastColon_append n t ht
  have hs := ociCore_ops_structure reg (String.mk (n ++ ':' :: t)) mt n t hsplit hv
  rw [ociBuiltin_ops]
  exact ⟨hs.1, hs.2.1⟩

theorem blobDigest_splits_at_last_colon_witness :
    (ociBlobDigestBuiltin regDemo locDemo
        (AstArg.str (String.mk ("a:b".data ++ ':' :: "tg".data))) (AstArg.str "mtA")
        ⟨some fcEmptyStream, false⟩).ops.head? =
      some (RegOp.openRepo (String.mk "a:b".data)) ∧
    (∀ nm' tg', RegOp.tagLookup nm' tg' ∈
        (ociBlobDigestBuiltin regDemo locDemo
          (AstArg.str (String.mk ("a:b".data ++ ':' :: "tg".data))) (AstArg.str "mtA")
          ⟨some fcEmptyStream, false⟩).ops →
      nm' = String.mk "a:b".data ∧ tg' = String.mk "tg".data) :=
  blobDigest_splits_at_last_colon regDemo locDemo fcEmptyStream false "mtA"
    "a:b".data "tg".data (by decide) (by decide) (by decide)

/-- C5: when the tag lookup reports specifically that the tag is unknown,
the resolver returns the empty string successfully with the evaluation
state untouched (no error recorded, no cancellation); any other tag-lookup
error is a hard failure that records a wrapped error and cancels. -/
theorem tagUnknown_empty_success (reg : Registry) (loc : String)
    (fc : FuncContext) (c : Bool) (ref mt : String) (nm tg : List Char)
    (hsplit : splitLastColon ref.data = some (nm, tg))
    (hv : reg.validName (String.mk nm) = true)
    (hro : reg.repoOpen (String.mk nm) = Except.ok ()) :
    (reg.tagGet (String.mk nm) (String.mk tg) = TagLookup.unknown →
      (ociBlobDigestBuiltin reg loc (AstArg.str ref) (AstArg.str mt)
          ⟨some fc, c⟩).term = some "" ∧
      (ociBlobDigestBuiltin reg loc (AstArg.str ref) (AstArg.str mt)
          ⟨some fc, c⟩).err = none ∧
      (ociBlobDigestBuiltin reg loc (AstArg.str ref) (AstArg.str mt)
          ⟨some fc, c⟩).state = ⟨some fc, c⟩) ∧
    (∀ e, reg.tagGet (String.mk nm) (String.mk tg) = TagLookup.failure e →
      (ociBlobDigestBuiltin reg loc (AstArg.str ref) (AstArg.str mt)
          ⟨some fc, c⟩).err =
        some ("while getting tag " ++ String.mk tg ++ ": " ++ e) ∧
      slotOf (ociBlobDigestBuiltin reg loc (AstArg.str ref) (AstArg.str mt)
          ⟨some fc, c⟩).state =
        some (wrapOciErr loc ("while getting tag " ++ String.mk tg ++ ": " ++ e)) ∧
      (ociBlobDigestBuiltin reg loc (AstArg.str ref) (AstArg.str mt)
          ⟨some fc, c⟩).state.cancelled = true) := by
  constructor
  · intro htg
    rw [ociBuiltin_of_core_ok reg loc _ _ fc c _ _
      (ociCore_tagUnknown reg ref mt nm tg hsplit hv hro htg)]
    exact ⟨rfl, rfl, rfl⟩
  · intro e htg
    rw [ociBuiltin_of_core_error reg loc _ _ fc c _ _
      (ociCore_tagFailure reg ref mt nm tg e hsplit hv hro htg)]
    simp [ociFail, slotOf]

theorem tagUnknown_empty_success_witness :
    (ociBlobDigestBuiltin regDemo locDemo (AstArg.str "repo:gone") (AstArg.str "mtA")
        ⟨some fcEmptyStream, false⟩).term = some "" ∧
    (ociBlobDigestBuiltin regDemo locDemo (AstArg.str "repo:gone") (AstArg.str "mtA")
        ⟨some fcEmptyStream, false⟩).err = none ∧
    (ociBlobDigestBuiltin regDemo locDemo (AstArg.str "repo:gone") (AstArg.str "mtA")
        ⟨some fcEmptyStream, false⟩).state = ⟨some fcEmptyStream, false⟩ :=
  (tagUnknown_empty_success regDemo locDemo fcEmptyStream false "repo:gone" "mtA"
    "repo".data "gone".data (by decide) (by decide) rfl).1 (by decide)

/-- C6: for a successfully decoded manifest, the resolver returns the hex
digest (no algorithm prefix) of the first layer, in manifest order, whose
media type equals the requested one exactly, and the empty string
successfully when no layer matches; the evaluation state is untouched. -/
theorem first_matching_layer_digest (reg : Registry) (loc : String)
    (fc : FuncContext) (c : Bool) (ref mt : String) (nm tg : List Char)
    (d : String) (pl : List UInt8) (m : Manifest)
    (hsplit : splitLastColon ref.data = some (nm, tg))
    (hv : reg.validName (String.mk nm) = true)
    (hro : reg.repoOpen (String.mk nm) = Except.ok ())
    (htg : reg.tagGet (String.mk nm) (String.mk tg) = TagLookup.found d)
    (hms : reg.manifestsSvc (String.mk nm) = Except.ok ())
    (hmg : reg.manifestGet (String.mk nm) d = Except.ok ())
    (hpl : reg.payload (String.mk nm) d = Except.ok pl)
    (hum : reg.unmarshal pl = Except.ok m) :
    (ociBlobDigestBuiltin reg loc (AstArg.str ref) (AstArg.str mt)
        ⟨some fc, c⟩).term =
      some ((m.layers.find? fun l => l.mediaType == mt).elim "" Layer.digestHex) ∧
    (ociBlobDigestBuiltin reg loc (AstArg.str ref) (AstArg.str mt)
        ⟨some fc, c⟩).err = none ∧
    (ociBlobDigestBuiltin reg loc (AstArg.str ref) (AstArg.str mt)
        ⟨some fc, c⟩).state = ⟨some fc, c⟩ := by
  rw [ociBuiltin_of_core_ok reg loc _ _ fc c _ _
    (ociCore_decoded reg ref mt nm tg d pl m hsplit hv hro htg hms hmg hpl hum)]
  exact ⟨rfl, rfl, rfl⟩

theorem first_matching_layer_digest_witness :
    (ociBlobDigestBuiltin regDemo locDemo (AstArg.str "repo:v1") (AstArg.str "mtA")
        ⟨some fcEmptyStream, false⟩).term =
      some ((({ layers := [Layer.mk "mtA" "hex1", Layer.mk "mtB" "hex2",
                           Layer.mk "mtA" "hex3"] } : Manifest).layers.find?
          fun l => l.mediaType == "mtA").elim "" Layer.digestHex) ∧
    (ociBlobDigestBuiltin regDemo locDemo (AstArg.str "repo:v1") (AstArg.str "mtA")
        ⟨some fcEmptyStream, false⟩).err = none ∧
    (ociBlobDigestBuiltin regDemo locDemo (AstArg.str "repo:v1") (AstArg.str "mtA")
        ⟨some fcEmptyStream, false⟩).state = ⟨some fcEmptyStream, false⟩ :=
  first_matching_layer_digest regDemo locDemo fcEmptyStream false "repo:v1" "mtA"
    "repo".data "v1".data "sha256abc" [1, 2]
    { layers := [Layer.mk "mtA" "hex1", Layer.mk "mtB" "hex2", Layer.mk "mtA" "hex3"] }
    (by decide) (by decide) rfl (by decide) rfl rfl rfl
    rfl

/-- C7: a reference containing no colon at all makes the resolver fail with
the parse error `"reference without tag"` before any registry-collaborator
operation is invoked. -/
theorem no_colon_parse_error_no_registry (reg : Registry) (loc : String)
    (fc : FuncContext) (c : Bool) (ref mt : String) (h : ':' ∉ ref.data) :
    (ociBlobDigestBuiltin reg loc (AstArg.str ref) (AstArg.str mt)
        ⟨some fc, c⟩).err = some "reference without tag" ∧
    (ociBlobDigestBuiltin reg loc (AstArg.str ref) (AstArg.str mt)
        ⟨some fc, c⟩).ops = [] := by
  have hs : splitLastColon ref.data = none := (splitLastColon_eq_none ref.data).mpr h
  have hcore : ociCore reg (AstArg.str ref) (AstArg.str mt) =
      (Except.error "reference without tag", []) := by
    simp [ociCore, hs]
  rw [ociBuiltin_of_core_error reg loc _ _ fc c _ _ hcore]
  exact ⟨rfl, rfl⟩

theorem no_colon_parse_error_no_registry_witness :
    (ociBlobDigestBuiltin regDemo locDemo (AstArg.str "noColonHere") (AstArg.str "mtA")
        ⟨some fcEmptyStream, false⟩).err = some "reference without tag" ∧
    (ociBlobDigestBuiltin regDemo locDemo (AstArg.str "noColonHere") (AstArg.str "mtA")
        ⟨some fcEmptyStream, false⟩).ops = [] :=
  no_colon_parse_error_no_registry regDemo locDemo fcEmptyStream false "noColonHere"
    "mtA" (by decide)

/-- C9, counterexample: the reference `"myrepo:"` has its last separator
followed by an empty tag, yet resolution does not fail at parsing — with a
name validator accepting `"myrepo"` (as the real `reference.WithName`
does), the resolver proceeds to a registry tag lookup with the empty
tag. -/
theorem empty_tag_reaches_lookup_cex :
    RegOp.tagLookup "myrepo" "" ∈
      (ociBlobDigestBuiltin regDemo locDemo (AstArg.str "myrepo:") (AstArg.str "mtA")
        ⟨some fcEmptyStream, false⟩).ops ∧
    (ociBlobDigestBuiltin regDemo locDemo (AstArg.str "myrepo:") (AstArg.str "mtA")
        ⟨some fcEmptyStream, false⟩).err ≠ some "reference without tag" := by
  decide

/-- C9, amended: the resolver requires only that a separator byte exists
and that the name before the last separator passes validation; an empty tag
after the last separator is not rejected at parse time — whenever the name
validates and the repository opens, the registry tag lookup is invoked with
the empty tag. -/
theorem empty_tag_passes_to_lookup (reg : Registry) (loc : String)
    (fc : FuncContext) (c : Bool) (ref mt : String) (nm : List Char)
    (hsplit : splitLastColon ref.data = some (nm, []))
    (hv : reg.validName (String.mk nm) = true)
    (hro : reg.repoOpen (String.mk nm) = Except.ok ()) :
    RegOp.tagLookup (String.mk nm) "" ∈
      (ociBlobDigestBuiltin reg loc (AstArg.str ref) (AstArg.str mt)
        ⟨some fc, c⟩).ops := by
  rw [ociBuiltin_ops]
  exact (ociCore_ops_structure reg ref mt nm [] hsplit hv).2.2 hro

theorem empty_tag_passes_to_lookup_witness :
    RegOp.tagLookup (String.mk "myrepo".data) "" ∈
      (ociBlobDigestBuiltin regDemo locDemo (AstArg.str "myrepo:") (AstArg.str "mtA")
        ⟨some fcEmptyStream, false⟩).ops :=
  empty_tag_passes_to_lookup regDemo locDemo fcEmptyStream false "myrepo:" "mtA"
    "myrepo".data (by decide) (by decide) rfl

theorem reqBuiltin_of_core_ok (env : ReqEnv) (loc : String) (fc : FuncContext)
    (c : Bool) (v : AstValue) (b' : Body) (evs : List PoolEvent)
    (h : reqBodyCore env fc.reqBody = (Except.ok v, b', evs)) :
    requestBodyBuiltin env loc ⟨some fc, c⟩ =
      { term := some v, err := none
        state := ⟨some ⟨b', fc.builtinErr⟩, c⟩, events := evs } := by
  simp [requestBodyBuiltin, h]

theorem reqBuiltin_of_core_error (env : ReqEnv) (loc : String) (fc : FuncContext)
    (c : Bool) (e : String) (b' : Body) (evs : List PoolEvent)
    (h : reqBodyCore env fc.reqBody = (Except.error e, b', evs)) :
    requestBodyBuiltin env loc ⟨some fc, c⟩ =
      { term := none, err := some e
        state := ⟨some ⟨b', some (wrapReqBodyErr loc e)⟩, true⟩, events := evs } := by
  simp [requestBodyBuiltin, h]

/-! Claim theorems for the request-body accessor and the error protocol. -/

/-- C1, code bug, evaluated at the failing inputs: on the read-failure exit
and on the parse-failure exit the accessor acquires a pooled buffer and
releases nothing, and leaves no `bufPoolCloser` installed that could
release it later — the buffer is never returned to the pool; and
`bufPoolCloser.Close` is not idempotent: closing the same closer twice
releases its buffer twice. -/
theorem buffer_release_discipline_cex :
    ((requestBodyBuiltin envParseError locDemo ⟨some fcEmptyStream, false⟩).events =
        [PoolEvent.acquire 7] ∧
      resultBody (requestBodyBuiltin envParseError locDemo ⟨some fcEmptyStream, false⟩) =
        some (Body.stream [])) ∧
    ((requestBodyBuiltin envParseError locDemo
        ⟨some ⟨Body.stream [[65]], none⟩, false⟩).events = [PoolEvent.acquire 7] ∧
      resultBody (requestBodyBuiltin envParseError locDemo
        ⟨some ⟨Body.stream [[65]], none⟩, false⟩) = some (Body.stream [])) ∧
    closeTimes 7 2 = [PoolEvent.release 7, PoolEvent.release 7] := by
  decide

/-- C2, counterexample: when the evaluation context is missing, the
`request.body` builtin returns a fatal error and cancels the evaluation,
but the shared error slot stays empty — there is no context holding a slot
to write to, so the two-step protocol does not apply to this fatal case. -/
theorem missing_context_cancels_without_slot_cex :
    (requestBodyBuiltin envParseOk locDemo ⟨none, false⟩).err = some "bad context" ∧
    (requestBodyBuiltin envParseOk locDemo ⟨none, false⟩).state.cancelled = true ∧
    slotNonEmpty (requestBodyBuiltin envParseOk locDemo ⟨none, false⟩).state = false := by
  decide

/-- C2, amended: for every fatal error arising inside either custom
function after the evaluation context has been found, both hold when the
function returns: the shared error slot holds the wrapped,
context-annotated error, and the evaluation's cancellation token has been
cancelled. The missing-context precondition error cancels the evaluation
but cannot write the slot, since no context is attached. -/
theorem fatal_error_records_slot_and_cancels (reg : Registry) (env : ReqEnv)
    (loc : String) (a b : AstArg) (fc : FuncContext) (c : Bool) :
    (∀ e, (ociBlobDigestBuiltin reg loc a b ⟨some fc, c⟩).err = some e →
      slotOf (ociBlobDigestBuiltin reg loc a b ⟨some fc, c⟩).state =
        some (wrapOciErr loc e) ∧
      (ociBlobDigestBuiltin reg loc a b ⟨some fc, c⟩).state.cancelled = true) ∧
    (∀ e, (requestBodyBuiltin env loc ⟨some fc, c⟩).err = some e →
      slotOf (requestBodyBuiltin env loc ⟨some fc, c⟩).state =
        some (wrapReqBodyErr loc e) ∧
      (requestBodyBuiltin env loc ⟨some fc, c⟩).state.cancelled = true) := by
  constructor
  · intro e he
    rcases hco : ociCore reg a b with ⟨res, ops⟩
    cases res with
    | ok v =>
      rw [ociBuiltin_of_core_ok reg loc a b fc c v ops hco] at he
      cases he
    | error e' =>
      rw [ociBuiltin_of_core_error reg loc a b fc c e' ops hco] at he ⊢
      simp only [ociFail, Option.some.injEq] at he
      subst he
      simp [ociFail, slotOf]
  · intro e he
    rcases hco : reqBodyCore env fc.reqBody with ⟨res, b', evs⟩
    cases res with
    | ok v =>
      rw [reqBuiltin_of_core_ok env loc fc c v b' evs hco] at he
      cases he
    | error e' =>
      rw [reqBuiltin_of_core_error env loc fc c e' b' evs hco] at he ⊢
      simp only [Option.some.injEq] at he
      subst he
      simp [slotOf]

theorem fatal_error_records_slot_and_cancels_witness :
    (slotOf (ociBlobDigestBuiltin regDemo locDemo AstArg.nonStr AstArg.nonStr
        ⟨some fcEmptyStream, false⟩).state =
      some (wrapOciErr locDemo "oci reference is not a string") ∧
     (ociBlobDigestBuiltin regDemo locDemo AstArg.nonStr AstArg.nonStr
        ⟨some fcEmptyStream, false⟩).state.cancelled = true) ∧
    (slotOf (requestBodyBuiltin envParseError locDemo
        ⟨some fcEmptyStream, false⟩).state =
      some (wrapReqBodyErr locDemo "empty body request") ∧
     (requestBodyBuiltin envParseError locDemo
        ⟨some fcEmptyStream, false⟩).state.cancelled = true) :=
  ⟨(fatal_error_records_slot_and_cancels regDemo envParseError locDemo AstArg.nonStr
      AstArg.nonStr fcEmptyStream false).1 "oci reference is not a string" (by decide),
   (fatal_error_records_slot_and_cancels regDemo envParseError locDemo AstArg.nonStr
      AstArg.nonStr fcEmptyStream false).2 "empty body request" (by decide)⟩

/-- C3: for a request whose body is non-empty and fully captured within one
buffer-sized read, a successful invocation of the accessor substitutes a
replayable wrapper positioned at offset 0 over exactly the bytes read, so
reading the request's body from the start afterwards yields byte-for-byte
the content the original stream held. -/
theorem requestBody_roundtrip (env : ReqEnv) (loc : String) (c : Bool)
    (be : Option String) (content : List UInt8) (v : AstValue)
    (h1 : content ≠ []) (h2 : content.length ≤ bufCap)
    (hp : env.parse content = Except.ok v) :
    (requestBodyBuiltin env loc ⟨some ⟨Body.stream [content], be⟩, c⟩).err = none ∧
    (requestBodyBuiltin env loc ⟨some ⟨Body.stream [content], be⟩, c⟩).term = some v ∧
    resultBody (requestBodyBuiltin env loc ⟨some ⟨Body.stream [content], be⟩, c⟩) =
      some (Body.replayable content 0 env.bufId) ∧
    bodyContentFromStart (Body.replayable content 0 env.bufId) =
      bodyContentFromStart (Body.stream [content]) := by
  have hr : readAtLeast1Stream bufCap [content] = (content, [], false) :=
    readAtLeast1Stream_single bufCap content h1 h2
  have hcore : reqBodyCore env (Body.stream [content]) =
      (Except.ok v, Body.replayable content 0 env.bufId,
       [PoolEvent.acquire env.bufId]) := by
    simp [reqBodyCore, readAtLeast1Body, hr, hp]
  rw [reqBuiltin_of_core_ok env loc ⟨Body.stream [content], be⟩ c v _ _ hcore]
  simp [resultBody, bodyContentFromStart]

theorem requestBody_roundtrip_witness :
    (requestBodyBuiltin envParseOk locDemo
        ⟨some ⟨Body.stream [[65, 66]], none⟩, false⟩).err = none ∧
    (requestBodyBuiltin envParseOk locDemo
        ⟨some ⟨Body.stream [[65, 66]], none⟩, false⟩).term =
      some (AstValue.node [65, 66]) ∧
    resultBody (requestBodyBuiltin envParseOk locDemo
        ⟨some ⟨Body.stream [[65, 66]], none⟩, false⟩) =
      some (Body.replayable [65, 66] 0 envParseOk.bufId) ∧
    bodyContentFromStart (Body.replayable [65, 66] 0 envParseOk.bufId) =
      bodyContentFromStart (Body.stream [[65, 66]]) :=
  requestBody_roundtrip envParseOk locDemo false none [65, 66]
    (AstValue.node [65, 66]) (by decide) (by decide) rfl

/-- C8: on a request with no body (`nil` or the `http.NoBody` sentinel) the
accessor returns the null value successfully with the state untouched; on a
request whose body stream yields zero bytes, it fails with the
`"empty body request"` error and installs no replayable body. -/
theorem noBody_null_emptyStream_error (env : ReqEnv) (loc : String) (c : Bool)
    (be : Option String) (cs : List (List UInt8))
    (hcs : ∀ ch ∈ cs, ch = ([] : List UInt8)) :
    ((requestBodyBuiltin env loc ⟨some ⟨Body.nilBody, be⟩, c⟩).term =
        some AstValue.null ∧
      (requestBodyBuiltin env loc ⟨some ⟨Body.nilBody, be⟩, c⟩).err = none ∧
      (requestBodyBuiltin env loc ⟨some ⟨Body.nilBody, be⟩, c⟩).state =
        ⟨some ⟨Body.nilBody, be⟩, c⟩) ∧
    ((requestBodyBuiltin env loc ⟨some ⟨Body.noBody, be⟩, c⟩).term =
        some AstValue.null ∧
      (requestBodyBuiltin env loc ⟨some ⟨Body.noBody, be⟩, c⟩).err = none ∧
      (requestBodyBuiltin env loc ⟨some ⟨Body.noBody, be⟩, c⟩).state =
        ⟨some ⟨Body.noBody, be⟩, c⟩) ∧
    ((requestBodyBuiltin env loc ⟨some ⟨Body.stream cs, be⟩, c⟩).err =
        some "empty body request" ∧
      (requestBodyBuiltin env loc ⟨some ⟨Body.stream cs, be⟩, c⟩).term = none ∧
      ∀ bs p i, resultBody (requestBodyBuiltin env loc ⟨some ⟨Body.stream cs, be⟩, c⟩) ≠
        some (Body.replayable bs p i)) := by
  refine ⟨⟨rfl, rfl, rfl⟩, ⟨rfl, rfl, rfl⟩, ?_⟩
  have hr : readAtLeast1Stream bufCap cs = ([], [], true) :=
    readAtLeast1Stream_allEmpty bufCap cs hcs
  have hcore : reqBodyCore env (Body.stream cs) =
      (Except.error "empty body request", Body.stream [],
       [PoolEvent.acquire env.bufId]) := by
    simp [reqBodyCore, readAtLeast1Body, hr]
  rw [reqBuiltin_of_core_error env loc ⟨Body.stream cs, be⟩ c _ _ _ hcore]
  simp [resultBody]

theorem noBody_null_emptyStream_error_witness :
    ((requestBodyBuiltin envParseOk locDemo ⟨some ⟨Body.nilBody, none⟩, false⟩).term =
        some AstValue.null ∧
      (requestBodyBuiltin envParseOk locDemo ⟨some ⟨Body.nilBody, none⟩, false⟩).err =
        none ∧
      (requestBodyBuiltin envParseOk locDemo ⟨some ⟨Body.nilBody, none⟩, false⟩).state =
        ⟨some ⟨Body.nilBody, none⟩, false⟩) ∧
    ((requestBodyBuiltin envParseOk locDemo ⟨some ⟨Body.noBody, none⟩, false⟩).term =
        some AstValue.null ∧
      (requestBodyBuiltin envParseOk locDemo ⟨some ⟨Body.noBody, none⟩, false⟩).err =
        none ∧
      (requestBodyBuiltin envParseOk locDemo ⟨some ⟨Body.noBody, none⟩, false⟩).state =
        ⟨some ⟨Body.noBody, none⟩, false⟩) ∧
    ((requestBodyBuiltin envParseOk locDemo ⟨some ⟨Body.stream [[]], none⟩, false⟩).err =
        some "empty body request" ∧
      (requestBodyBuiltin envParseOk locDemo ⟨some ⟨Body.stream [[]], none⟩, false⟩).term =
        none ∧
      ∀ bs p i, resultBody
          (requestBodyBuiltin envParseOk locDemo ⟨some ⟨Body.stream [[]], none⟩, false⟩) ≠
        some (Body.replayable bs p i)) :=
  noBody_null_emptyStream_error envParseOk locDemo false none [[]] (by decide)

/-- C10: if the accessor fails after acquiring a buffer (zero bytes
readable, or the bytes read do not parse), the request's body field still
holds the original stream — advanced by exactly the bytes consumed — and no
replayable wrapper has been substituted; a replayable wrapper in the body
field implies the invocation succeeded. -/
theorem body_substitution_only_on_success (env : ReqEnv) (loc : String) (c : Bool)
    (be : Option String) (cs : List (List UInt8)) :
    ((requestBodyBuiltin env loc ⟨some ⟨Body.stream cs, be⟩, c⟩).err.isSome →
      ∃ cs' consumed,
        resultBody (requestBodyBuiltin env loc ⟨some ⟨Body.stream cs, be⟩, c⟩) =
          some (Body.stream cs') ∧
        cs.flatten = consumed ++ cs'.flatten) ∧
    (∀ bs p i,
      resultBody (requestBodyBuiltin env loc ⟨some ⟨Body.stream cs, be⟩, c⟩) =
          some (Body.replayable bs p i) →
      (requestBodyBuiltin env loc ⟨some ⟨Body.stream cs, be⟩, c⟩).err = none) := by
  have hflat := readAtLeast1Stream_flatten bufCap cs
  rcases hr : readAtLeast1Stream bufCap cs with ⟨bs0, cs', e⟩
  rw [hr] at hflat
  cases e with
  | true =>
    have hcore : reqBodyCore env (Body.stream cs) =
        (Except.error "empty body request", Body.stream cs',
         [PoolEvent.acquire env.bufId]) := by
      simp [reqBodyCore, readAtLeast1Body, hr]
    rw [reqBuiltin_of_core_error env loc ⟨Body.stream cs, be⟩ c _ _ _ hcore]
    constructor
    · intro _
      exact ⟨cs', bs0, rfl, hflat⟩
    · intro bs p i h
      simp [resultBody] at h
  | false =>
    cases hp : env.parse bs0 with
    | error pe =>
      have hcore : reqBodyCore env (Body.stream cs) =
          (Except.error pe, Body.stream cs', [PoolEvent.acquire env.bufId]) := by
        simp [reqBodyCore, readAtLeast1Body, hr, hp]
      rw [reqBuiltin_of_core_error env loc ⟨Body.stream cs, be⟩ c _ _ _ hcore]
      constructor
      · intro _
        exact ⟨cs', bs0, rfl, hflat⟩
      · intro bs p i h
        simp [resultBody] at h
    | ok v =>
      have hcore : reqBodyCore env (Body.stream cs) =
          (Except.ok v, Body.replayable bs0 0 env.bufId,
           [PoolEvent.acquire env.bufId]) := by
        simp [reqBodyCore, readAtLeast1Body, hr, hp]
      rw [reqBuiltin_of_core_ok env loc ⟨Body.stream cs, be⟩ c v _ _ hcore]
      constructor
      · intro h
        simp at h
      · intro bs p i _
        rfl

theorem body_substitution_only_on_success_witness :
    ∃ cs' consumed,
      resultBody (requestBodyBuiltin envParseError locDemo
          ⟨some ⟨Body.stream [[65]], none⟩, false⟩) = some (Body.stream cs') ∧
      ([[65]] : List (List UInt8)).flatten = consumed ++ cs'.flatten :=
  (body_substitution_only_on_success envParseError locDemo false none [[65]]).1
    (by decide)

end Beskar
